import Mathlib

/-!
Verification of the cupoch graph / occupancy-grid core against its
specification.  The C++ sources (thrust-based CUDA code) are shallowly
embedded: device vectors become lists, floats become exact rationals,
`NaN` becomes `Option.none`, bulk-parallel phases become sequential folds
(each modelled phase only performs writes that are disjoint across
elements, so any schedule gives the same result), and logged errors become
an explicit error component.

Rational arithmetic is performed through small wrappers (`qadd`, `qlt`,
...) defined from `mkRat` / `Rat.num` / `Rat.den` so that all model
functions evaluate inside the kernel; bridge lemmas relate the wrappers to
the ordered-field operations on `ℚ` for the general theorems.
-/

/- ## Kernel-computable rational arithmetic -/

/-- Addition on `ℚ` via `mkRat`, kernel-reducible. -/
def qadd (a b : ℚ) : ℚ := mkRat (a.num * b.den + b.num * a.den) (a.den * b.den)

/-- Negation on `ℚ` via `mkRat`, kernel-reducible. -/
def qneg (a : ℚ) : ℚ := mkRat (-a.num) a.den

/-- Subtraction on `ℚ` via `mkRat`, kernel-reducible. -/
def qsub (a b : ℚ) : ℚ := mkRat (a.num * b.den - b.num * a.den) (a.den * b.den)

/-- Multiplication on `ℚ` via `mkRat`, kernel-reducible. -/
def qmul (a b : ℚ) : ℚ := mkRat (a.num * b.num) (a.den * b.den)

/-- Division on `ℚ` via `mkRat`, kernel-reducible; division by zero gives 0
as in Mathlib. -/
def qdiv (a b : ℚ) : ℚ :=
  let n := a.num * (b.den : ℤ)
  let d := (a.den : ℤ) * b.num
  if d < 0 then mkRat (-n) (-d).toNat else mkRat n d.toNat

/-- Strict order on `ℚ` by cross multiplication, kernel-reducible. -/
def qlt (a b : ℚ) : Bool := decide (a.num * (b.den : ℤ) < b.num * (a.den : ℤ))

/-- Order on `ℚ` by cross multiplication, kernel-reducible. -/
def qle (a b : ℚ) : Bool := decide (a.num * (b.den : ℤ) ≤ b.num * (a.den : ℤ))

/-- `std::min` of C++: picks the left argument on ties. -/
def qmin (a b : ℚ) : ℚ := if qle a b then a else b

/-- `std::max` of C++: `(a < b) ? b : a`. -/
def qmax (a b : ℚ) : ℚ := if qlt a b then b else a

/-- Floor of a rational, kernel-reducible (`den` is positive). -/
def qfloor (a : ℚ) : ℤ := Int.fdiv a.num a.den

theorem qle_iff (a b : ℚ) : qle a b = true ↔ a ≤ b := by
  rw [qle, decide_eq_true_iff]
  have ha : (0 : ℚ) < (a.den : ℚ) := by exact_mod_cast a.den_pos
  have hb : (0 : ℚ) < (b.den : ℚ) := by exact_mod_cast b.den_pos
  constructor
  · intro h
    have h2 : (a.num : ℚ) / (a.den : ℚ) ≤ (b.num : ℚ) / (b.den : ℚ) :=
      (div_le_div_iff₀ ha hb).mpr (by exact_mod_cast h)
    rwa [Rat.num_div_den, Rat.num_div_den] at h2
  · intro h
    have h2 : (a.num : ℚ) / (a.den : ℚ) ≤ (b.num : ℚ) / (b.den : ℚ) := by
      rw [Rat.num_div_den, Rat.num_div_den]; exact h
    exact_mod_cast (div_le_div_iff₀ ha hb).mp h2

theorem qlt_iff (a b : ℚ) : qlt a b = true ↔ a < b := by
  rw [qlt, decide_eq_true_iff]
  have ha : (0 : ℚ) < (a.den : ℚ) := by exact_mod_cast a.den_pos
  have hb : (0 : ℚ) < (b.den : ℚ) := by exact_mod_cast b.den_pos
  constructor
  · intro h
    have h2 : (a.num : ℚ) / (a.den : ℚ) < (b.num : ℚ) / (b.den : ℚ) :=
      (div_lt_div_iff₀ ha hb).mpr (by exact_mod_cast h)
    rwa [Rat.num_div_den, Rat.num_div_den] at h2
  · intro h
    have h2 : (a.num : ℚ) / (a.den : ℚ) < (b.num : ℚ) / (b.den : ℚ) := by
      rw [Rat.num_div_den, Rat.num_div_den]; exact h
    exact_mod_cast (div_lt_div_iff₀ ha hb).mp h2

theorem qmin_eq (a b : ℚ) : qmin a b = min a b := by
  rw [qmin, min_def]
  by_cases h : a ≤ b
  · rw [if_pos ((qle_iff a b).mpr h), if_pos h]
  · rw [if_neg (by simpa using (fun hq => h ((qle_iff a b).mp hq))), if_neg h]

theorem qmax_eq (a b : ℚ) : qmax a b = max a b := by
  rw [qmax, max_def]
  by_cases h : a < b
  · rw [if_pos ((qlt_iff a b).mpr h), if_pos (le_of_lt h)]
  · by_cases h2 : a ≤ b
    · have hab : a = b := le_antisymm h2 (not_lt.mp h)
      rw [if_neg (by simpa using (fun hq => h ((qlt_iff a b).mp hq))), if_pos h2, hab]
    · rw [if_neg (by simpa using (fun hq => h ((qlt_iff a b).mp hq))), if_neg h2]

/- ## Generic list helpers mirroring the thrust primitives -/

/-- `resize(n, d)` of a C++ vector: keep the prefix, pad with `d`. -/
def resizeD {α : Type} (l : List α) (n : ℕ) (d : α) : List α :=
  l.take n ++ List.replicate (n - l.length) d

theorem length_resizeD {α : Type} (l : List α) (n : ℕ) (d : α) :
    (resizeD l n d).length = n := by
  simp [resizeD]
  omega

theorem resizeD_nil {α : Type} (n : ℕ) (d : α) :
    resizeD ([] : List α) n d = List.replicate n d := by
  simp [resizeD]

/-- Insert into a sorted list, keeping the new element after equal ones
(stable insertion). -/
def insertOrd {α : Type} (lt : α → α → Bool) (a : α) : List α → List α
  | [] => [a]
  | b :: bs => if lt b a then b :: insertOrd lt a bs else a :: b :: bs

/-- Stable insertion sort; models `thrust::sort` / `thrust::sort_by_key`
(whose order on ties is unspecified; no claim below depends on it). -/
def sortOrd {α : Type} (lt : α → α → Bool) : List α → List α
  | [] => []
  | a :: as => insertOrd lt a (sortOrd lt as)

theorem length_insertOrd {α : Type} (lt : α → α → Bool) (a : α) (l : List α) :
    (insertOrd lt a l).length = l.length + 1 := by
  induction l with
  | nil => rfl
  | cons b bs ih =>
    rw [insertOrd]
    by_cases h : lt b a
    · simp [h, ih]
    · simp [h]

theorem length_sortOrd {α : Type} (lt : α → α → Bool) (l : List α) :
    (sortOrd lt l).length = l.length := by
  induction l with
  | nil => rfl
  | cons a as ih => rw [sortOrd, length_insertOrd, ih, List.length_cons]

/-- Fuelled merge set-difference, the algorithm of `thrust::set_difference`
on sorted ranges.  `lt` is the ordering comparator. -/
def setDiffFuel {α : Type} (lt : α → α → Bool) : ℕ → List α → List α → List α
  | 0, as, _ => as
  | _ + 1, [], _ => []
  | _ + 1, a :: as, [] => a :: as
  | f + 1, a :: as, b :: bs =>
    if lt a b then a :: setDiffFuel lt f as (b :: bs)
    else if lt b a then setDiffFuel lt f (a :: as) bs
    else setDiffFuel lt f as bs

/-- `thrust::set_difference` on sorted ranges. -/
def setDiffBy {α : Type} (lt : α → α → Bool) (as bs : List α) : List α :=
  setDiffFuel lt (as.length + bs.length) as bs

/-- `thrust::unique`: keep the first element of each run of equal
consecutive elements (auxiliary with the previous element). -/
def uniqAux {α : Type} [BEq α] (prev : α) : List α → List α
  | [] => []
  | b :: t => if prev == b then uniqAux prev t else b :: uniqAux b t

/-- `thrust::unique` on a list. -/
def uniqueConsecutive {α : Type} [BEq α] : List α → List α
  | [] => []
  | a :: t => a :: uniqAux a t

/-- Run-length grouping of consecutive equal keys (the segments that
`thrust::reduce_by_key` reduces over). -/
def groupRuns {α β : Type} [BEq α] : List (α × β) → List (α × List β)
  | [] => []
  | (k, v) :: rest =>
    match groupRuns rest with
    | [] => [(k, [v])]
    | (k2, vs) :: t =>
      if k == k2 then (k, v :: vs) :: t else (k, [v]) :: (k2, vs) :: t

/-- `thrust::reduce_by_key`: distinct keys of each consecutive segment
paired with the fold of the segment values under `comb`. -/
def reduceByKey {α β : Type} [BEq α] (comb : β → β → β) (d : β)
    (l : List (α × β)) : List (α × β) :=
  (groupRuns l).map (fun kv =>
    (kv.1, match kv.2 with
           | [] => d
           | v :: vs => vs.foldl comb v))

/-- `thrust::exclusive_scan` with initial value `acc`. -/
def exScan (acc : ℤ) : List ℤ → List ℤ
  | [] => []
  | x :: xs => acc :: exScan (acc + x) xs

/-- Position of `j` in a list of naturals (the scatter used to invert the
edge permutation; the argument is always present in our uses). -/
def findPos (j : ℕ) : List ℕ → ℕ
  | [] => 0
  | a :: as => if a == j then 0 else findPos j as + 1

/- ## Graph data model (src/unnamed/part_002, `cupoch::geometry::Graph`)

The graph stores 3-D vertices, an edge list `lines_` with row-aligned
side arrays `edge_weights_` / `colors_`, per-vertex `node_colors_`, CSR
offsets `edge_index_offsets_` and the orientation flag `is_directed_`.
Vertex coordinates play no role in any claim below, so the vertex array is
represented by its size `npoints` (`points_.size()`). -/

/-- `Eigen::Vector2i`: an edge as a (source, destination) pair. -/
abbrev Vec2i := ℤ × ℤ

/-- An RGB colour triple (`Eigen::Vector3f`). -/
abbrev Color3 := ℚ × ℚ × ℚ

/-- `Eigen::Vector3f::Ones()`, the default white colour. -/
def whiteColor : Color3 := (1, 1, 1)

/-- The value-initialised colour written by a bare `resize`. -/
def zeroColor : Color3 := (0, 0, 0)

/-- Lexicographic order on `Eigen::Vector2i` used by `thrust::sort` on the
edge list (spec section 4.1: canonical (src, dst) order). -/
def vec2Lt (a b : Vec2i) : Bool :=
  decide (a.1 < b.1) || (a.1 == b.1 && decide (a.2 < b.2))

/-- `reverse_index_functor`: swap the two entries of an edge. -/
def reverseEdge (e : Vec2i) : Vec2i := (e.2, e.1)

/-- The recoverable failures of spec section 7 (`utility::LogError`
sites). -/
inductive GraphError
  | emptyGraph
  | sizeMismatch
  | notConstructed
deriving DecidableEq

/-- The mutable state of `cupoch::geometry::Graph`. -/
structure Graph where
  npoints : ℕ
  lines_ : List Vec2i
  edge_weights_ : List ℚ
  colors_ : List Color3
  node_colors_ : List Color3
  edge_index_offsets_ : List ℤ
  is_directed_ : Bool
deriving DecidableEq

/-- Modelled from the spec: `graph.h` is not under `src/`; "if no weights
exist" (spec section 4.1 step 3) reads weight presence as non-emptiness. -/
def Graph.HasWeights (g : Graph) : Bool := !g.edge_weights_.isEmpty

/-- Modelled from the spec: `lineset.h` is not under `src/`; edge colours
are "present" when the colour array is non-empty. -/
def Graph.HasColors (g : Graph) : Bool := !g.colors_.isEmpty

/-- Modelled from the spec: node colours are "absent" when the array is
empty (spec section 4.1, `PaintNodeColor`). -/
def Graph.HasNodeColors (g : Graph) : Bool := !g.node_colors_.isEmpty

/-- `Graph::ConstructGraph` (part_002 lines 143-173): sort the edge list
with its side arrays, default the weights when absent, rebuild the CSR
offsets with `reduce_by_key` + `gather` + `exclusive_scan`.  The gather
writes `offsets[i] = counts[indices[i]]` exactly as
`thrust::gather(indices, counts, offsets)` does; an out-of-range read
(undefined behaviour in the source, never reached in the claims) is
modelled as 0. -/
def Graph.ConstructGraph (g : Graph) : Option GraphError × Graph :=
  if g.lines_.isEmpty then (some GraphError.emptyGraph, g)
  else
    let n := g.lines_.length
    let hc := g.HasColors
    let hw := g.HasWeights
    let g1 :=
      if hc && hw then
        let z := sortOrd (fun a b => vec2Lt a.1 b.1)
                   (g.lines_.zip ((g.edge_weights_.take n).zip (g.colors_.take n)))
        { g with lines_ := z.map Prod.fst,
                 edge_weights_ := z.map (fun t => t.2.1) ++ g.edge_weights_.drop n,
                 colors_ := z.map (fun t => t.2.2) ++ g.colors_.drop n }
      else if hw then
        let z := sortOrd (fun a b => vec2Lt a.1 b.1)
                   (g.lines_.zip (g.edge_weights_.take n))
        { g with lines_ := z.map Prod.fst,
                 edge_weights_ := z.map Prod.snd ++ g.edge_weights_.drop n }
      else if hc then
        let z := sortOrd (fun a b => vec2Lt a.1 b.1)
                   (g.lines_.zip (g.colors_.take n))
        { g with lines_ := z.map Prod.fst,
                 colors_ := z.map Prod.snd ++ g.colors_.drop n }
      else
        { g with lines_ := sortOrd vec2Lt g.lines_,
                 edge_weights_ := resizeD g.edge_weights_ n 1 }
    let offs0 := resizeD g1.edge_index_offsets_ (g.npoints + 1) 0
    let srcs := g1.lines_.map Prod.fst
    let rbk := reduceByKey (fun a b => a + b) 0
                 (srcs.zip (List.replicate srcs.length (1 : ℤ)))
    let indices := rbk.map Prod.fst
    let counts := rbk.map Prod.snd
    let offs1 := (List.range indices.length).foldl
      (fun acc i => acc.set i (counts.getD (indices.getD i 0).toNat 0)) offs0
    (none, { g1 with edge_index_offsets_ := exScan 0 offs1 })

/-- `Graph::AddEdge` (part_002 lines 175-187): append the edge (and its
reverse when undirected) with the weight, pad colours with white, then
`ConstructGraph`. -/
def Graph.AddEdge (g : Graph) (edge : Vec2i) (weight : ℚ) :
    Option GraphError × Graph :=
  let lines1 := g.lines_ ++ [edge]
    ++ (if g.is_directed_ then [] else [reverseEdge edge])
  let ew1 := g.edge_weights_ ++ [weight]
    ++ (if g.is_directed_ then [] else [weight])
  let cs1 :=
    if g.HasColors then
      g.colors_ ++ [whiteColor] ++ (if g.is_directed_ then [] else [whiteColor])
    else g.colors_
  Graph.ConstructGraph { g with lines_ := lines1, edge_weights_ := ew1, colors_ := cs1 }

/-- `Graph::AddEdges` (part_002 lines 189-217): reject mismatched weight
lists; append edges (plus reverses when undirected); when no weights are
passed, resize the weight array — to `lines_.size()` in the directed
branch but to `2 * lines_.size()` in the undirected branch, where `lines_`
already contains the reversed copies — and fill the tail from the old
length with 1.0; extend colours with white when present; then
`ConstructGraph`. -/
def Graph.AddEdges (g : Graph) (edges : List Vec2i) (weights : List ℚ) :
    Option GraphError × Graph :=
  if !weights.isEmpty && edges.length != weights.length then
    (some GraphError.sizeMismatch, g)
  else
    let n_old_lines := g.lines_.length
    let lines1 := g.lines_ ++ edges
      ++ (if g.is_directed_ then [] else edges.map reverseEdge)
    let ew1 :=
      if weights.isEmpty then
        let sz := if g.is_directed_ then lines1.length else 2 * lines1.length
        let w0 := resizeD g.edge_weights_ sz 0
        w0.take n_old_lines ++ List.replicate (w0.length - n_old_lines) (1 : ℚ)
      else
        g.edge_weights_ ++ weights ++ (if g.is_directed_ then [] else weights)
    let cs1 :=
      if g.HasColors then
        let c0 := resizeD g.colors_ lines1.length zeroColor
        c0.take n_old_lines ++ List.replicate (c0.length - n_old_lines) whiteColor
      else g.colors_
  Graph.ConstructGraph { g with lines_ := lines1, edge_weights_ := ew1, colors_ := cs1 }

/-- `Graph::RemoveEdges` (part_002 lines 266-343): set-difference of the
rows against the sorted removal list, and — when undirected — a second
set-difference against the reversed removal list that reads the original
rows again and writes over the first result from the start of the output
buffer, so the first difference is discarded.  The row comparator
(`tuple_element_compare_functor`, `geometry_functor.h` not under `src/`)
is modelled from the spec as comparison on the edge column of the sorted
ranges.  Branches where a side array is absent drop it from the tuple; the
final swaps install the temporaries, clearing absent side arrays. -/
def Graph.RemoveEdges (g : Graph) (edges : List Vec2i) :
    Option GraphError × Graph :=
  let hc := g.HasColors
  let hw := g.HasWeights
  let n := g.lines_.length
  let sorted_edges := sortOrd vec2Lt edges
  let res :=
    if hc && hw then
      let src := g.lines_.zip ((g.edge_weights_.take n).zip (g.colors_.take n))
      let d1 := setDiffBy (fun a b => vec2Lt a.1 b.1) src
                  (sorted_edges.map (fun e => (e, ((1 : ℚ), whiteColor))))
      let d2 :=
        if g.is_directed_ then d1
        else setDiffBy (fun a b => vec2Lt a.1 b.1) src
               ((sorted_edges.map reverseEdge).map (fun e => (e, ((1 : ℚ), whiteColor))))
      (d2.map Prod.fst, d2.map (fun t => t.2.1), d2.map (fun t => t.2.2))
    else if hc then
      let src := g.lines_.zip (g.colors_.take n)
      let d1 := setDiffBy (fun a b => vec2Lt a.1 b.1) src
                  (sorted_edges.map (fun e => (e, whiteColor)))
      let d2 :=
        if g.is_directed_ then d1
        else setDiffBy (fun a b => vec2Lt a.1 b.1) src
               ((sorted_edges.map reverseEdge).map (fun e => (e, whiteColor)))
      (d2.map Prod.fst, [], d2.map Prod.snd)
    else if hw then
      let src := g.lines_.zip (g.edge_weights_.take n)
      let d1 := setDiffBy (fun a b => vec2Lt a.1 b.1) src
                  (sorted_edges.map (fun e => (e, (1 : ℚ))))
      let d2 :=
        if g.is_directed_ then d1
        else setDiffBy (fun a b => vec2Lt a.1 b.1) src
               ((sorted_edges.map reverseEdge).map (fun e => (e, (1 : ℚ))))
      (d2.map Prod.fst, d2.map Prod.snd, [])
    else
      let d1 := setDiffBy vec2Lt g.lines_ sorted_edges
      let d2 :=
        if g.is_directed_ then d1
        else setDiffBy vec2Lt g.lines_ (sorted_edges.map reverseEdge)
      (d2, [], [])
  Graph.ConstructGraph
    { g with lines_ := res.1, edge_weights_ := res.2.1, colors_ := res.2.2 }

/-- `Graph::PaintNodesColor` (part_002 lines 400-409): materialise the
node-colour array as white when absent, then `for_each` over the counting
range `[0, nodes.size())` writes the colour at position `idx` — the
content of `nodes` is never read. -/
def Graph.PaintNodesColor (g : Graph) (nodes : List ℤ) (color : Color3) :
    Graph :=
  let nc0 :=
    if !g.HasNodeColors then List.replicate g.npoints whiteColor
    else g.node_colors_
  let nc1 := (List.range nodes.length).foldl (fun acc idx => acc.set idx color) nc0
  { g with node_colors_ := nc1 }

/- ## Parallel SSSP (`Graph::DijkstraPaths`, part_002 lines 426-480)

Distances are `Option ℚ` with `none` standing for the float `+∞` of the
source; `distAdd`/`distLt`/`distLe` mirror IEEE arithmetic and comparisons
on `+∞` for finite non-negative weights. -/

/-- `dist + w` with `none` as `+∞`. -/
def distAdd (a : Option ℚ) (w : ℚ) : Option ℚ := a.map (fun x => qadd x w)

/-- Strict comparison of distances, `none` as `+∞` (`inf < inf` is false,
as for floats). -/
def distLt (a b : Option ℚ) : Bool :=
  match a, b with
  | none, _ => false
  | some _, none => true
  | some x, some y => qlt x y

/-- Non-strict comparison of distances, `none` as `+∞` (`inf <= inf` is
true, as for floats). -/
def distLe (a b : Option ℚ) : Bool :=
  match a, b with
  | none, none => true
  | none, some _ => false
  | some _, none => true
  | some x, some y => qle x y

/-- `Graph::SSSPResult`.  Modelled from the spec (section 4.2, `graph.h`
is not under `src/`): a default-constructed entry holds distance `+∞` and
previous index `-1`. -/
structure SSSPResult where
  shortest_distance_ : Option ℚ
  prev_index_ : ℤ
deriving DecidableEq

/-- The default-constructed `SSSPResult`. -/
def ssspInit : SSSPResult := { shortest_distance_ := none, prev_index_ := -1 }

/-- Modelled from the spec: `IsConstructed` (`graph.h` is not under
`src/`) holds when the CSR offsets have length `n + 1` and the weights are
row-aligned (spec sections 3 and 4.2). -/
def Graph.IsConstructed (g : Graph) : Bool :=
  g.edge_index_offsets_.length == g.npoints + 1 &&
    g.edge_weights_.length == g.lines_.length

/-- The buffers of one `DijkstraPaths` run: the per-vertex result `out`
(`res` in the functors), the open flags, the per-edge buffer `res_tmp`
(indexed by destination-sorted row), the per-vertex buffer `res_tmp_s`,
and the `indices` vector with the segment count `nt` produced by the last
`reduce_by_key`. -/
structure SSSPState where
  out : List SSSPResult
  open_flags : List ℤ
  res_tmp : List SSSPResult
  res_tmp_s : List SSSPResult
  indices : List ℤ
  nt : ℕ

/-- `relax_functor` (part_002 lines 45-74) for one vertex `idx`: when
open, clear the flag and write `{res[src] + w(j), src}` into
`res_tmp[edge_table[j]]` for every CSR row `j` of `idx` (for those rows
`lines[j].x = idx`). -/
def relaxVertex (lines : List Vec2i) (offsets : List ℤ) (weights : List ℚ)
    (table : List ℕ) (st : SSSPState) (idxZ : ℤ) : SSSPState :=
  let idx := idxZ.toNat
  if st.open_flags.getD idx 0 == 0 then st
  else
    let st1 := { st with open_flags := st.open_flags.set idx 0 }
    let s := (offsets.getD idx 0).toNat
    let e := (offsets.getD (idx + 1) 0).toNat
    (List.range (e - s)).foldl (fun acc jj =>
      let j := s + jj
      let k := (lines.getD j (0, 0)).1
      let v : SSSPResult :=
        { shortest_distance_ :=
            distAdd (acc.out.getD k.toNat ssspInit).shortest_distance_
              (weights.getD j 0),
          prev_index_ := k }
      { acc with res_tmp := acc.res_tmp.set (table.getD j 0) v }) st1

/-- The relax phase: `for_each(indices.begin(), indices.begin() + nt,
func1)`.  Distinct vertices touch disjoint flags and disjoint `res_tmp`
rows, so the sequential fold agrees with every parallel schedule. -/
def relaxPhase (lines : List Vec2i) (offsets : List ℤ) (weights : List ℚ)
    (table : List ℕ) (st : SSSPState) : SSSPState :=
  (st.indices.take st.nt).foldl (relaxVertex lines offsets weights table) st

/-- The reduction operator of the `reduce_by_key` in `DijkstraPaths`:
`(lhs.shortest_distance_ <= rhs.shortest_distance_) ? lhs : rhs`. -/
def ssspComb (lhs rhs : SSSPResult) : SSSPResult :=
  if distLe lhs.shortest_distance_ rhs.shortest_distance_ then lhs else rhs

/-- The segmented reduction phase: keys are the destination entries of the
dst-sorted edge list, values the rows of `res_tmp`; the distinct keys are
written into the prefix of `indices` and the per-segment minima into the
prefix of `res_tmp_s`, sequentially — not at the destination vertex
position. -/
def reducePhase (sorted_lines : List Vec2i) (st : SSSPState) : SSSPState :=
  let pairs := (sorted_lines.map Prod.snd).zip st.res_tmp
  let rbk := reduceByKey ssspComb ssspInit pairs
  let ks := rbk.map Prod.fst
  let vs := rbk.map Prod.snd
  { st with indices := ks ++ st.indices.drop ks.length,
            res_tmp_s := vs ++ st.res_tmp_s.drop vs.length,
            nt := ks.length }

/-- `update_shortest_distances_functor` (part_002 lines 76-91) for one
entry of `indices`: compare `res[idx]` with `res_tmp_s[idx]`, commit and
reopen on strict improvement.  `idx` here is the destination vertex id
taken from the reduce keys, while `res_tmp_s` was filled sequentially by
segment position. -/
def commitVertex (st : SSSPState) (idxZ : ℤ) : SSSPState :=
  let idx := idxZ.toNat
  let cur := st.out.getD idx ssspInit
  let cand := st.res_tmp_s.getD idx ssspInit
  if distLt cand.shortest_distance_ cur.shortest_distance_ then
    { st with out := st.out.set idx cand,
              open_flags := st.open_flags.set idx 1 }
  else st

/-- The commit phase over `indices[0, nt)`. -/
def commitPhase (st : SSSPState) : SSSPState :=
  (st.indices.take st.nt).foldl commitVertex st

/-- `compare_path_length_functor` (part_002 lines 93-103) counted over
`indices[0, nt)`: open vertices strictly closer than the target. -/
def comparePathCount (st : SSSPState) (end_node_index : ℤ) : ℕ :=
  ((st.indices.take st.nt).filter (fun i =>
      (st.open_flags.getD i.toNat 0 != 0) &&
      distLt (st.out.getD i.toNat ssspInit).shortest_distance_
        (st.out.getD end_node_index.toNat ssspInit).shortest_distance_)).length

/-- The `while` loop of `DijkstraPaths`: run while some open flag is set,
with the targeted-mode early exit, applying relax, reduce and commit in
order.  The fuel is a modelling device for the unbounded `while`; spec
section 4.2 bounds the iterations by `n - 1` and every run below finishes
well within the supplied fuel. -/
def dijkstraLoop (lines : List Vec2i) (offsets : List ℤ) (weights : List ℚ)
    (table : List ℕ) (sorted_lines : List Vec2i) (end_node_index : ℤ) :
    ℕ → SSSPState → SSSPState
  | 0, st => st
  | fuel + 1, st =>
    if !(st.open_flags.contains 1) then st
    else if decide (0 ≤ end_node_index) && (comparePathCount st end_node_index == 0) then st
    else
      dijkstraLoop lines offsets weights table sorted_lines end_node_index fuel
        (commitPhase (reducePhase sorted_lines
          (relaxPhase lines offsets weights table st)))

/-- `Graph::DijkstraPaths` (part_002 lines 426-480): guard on
`IsConstructed`, sort a copy of the edge list by destination building the
`new_to_old` / `old_to_new` permutation tables, initialise the buffers
with the start vertex open at distance 0, and iterate the wavefront. -/
def Graph.DijkstraPaths (g : Graph) (start_node_index end_node_index : ℤ) :
    List SSSPResult :=
  let out0 := List.replicate g.npoints ssspInit
  if !g.IsConstructed then out0
  else
    let m := g.lines_.length
    let tagged := g.lines_.zip (List.range m)
    let sortedTagged := sortOrd (fun a b => decide (a.1.2 < b.1.2)) tagged
    let sorted_lines := sortedTagged.map Prod.fst
    let new_to_old := sortedTagged.map Prod.snd
    let old_to_new := (List.range m).map (fun j => findPos j new_to_old)
    let st0 : SSSPState :=
      { out := out0.set start_node_index.toNat
          { shortest_distance_ := some 0, prev_index_ := start_node_index },
        open_flags := (List.replicate g.npoints (0 : ℤ)).set start_node_index.toNat 1,
        res_tmp := List.replicate m ssspInit,
        res_tmp_s := List.replicate g.npoints ssspInit,
        indices := (List.range g.npoints).map Int.ofNat,
        nt := g.npoints }
    (dijkstraLoop g.lines_ g.edge_index_offsets_ g.edge_weights_ old_to_new
       sorted_lines end_node_index (g.npoints + 1) st0).out

/- ## Reference single-threaded Dijkstra (spec section 8) -/

/-- Modelled from the spec: pick the unvisited vertex of minimum tentative
distance (first index on ties). -/
def refPickMin (dist : List (Option ℚ)) (vis : List Bool) : Option ℕ :=
  (List.range dist.length).foldl (fun best i =>
    if vis.getD i true then best
    else
      match best with
      | none => some i
      | some b => if distLt (dist.getD i none) (dist.getD b none) then some i else best)
    none

/-- Modelled from the spec: relax every edge of the weighted edge list
whose source is `u`. -/
def refRelax (lines : List Vec2i) (weights : List ℚ) (u : ℕ)
    (dist : List (Option ℚ)) : List (Option ℚ) :=
  (List.range lines.length).foldl (fun d j =>
    let e := lines.getD j (0, 0)
    if e.1 == (u : ℤ) then
      let cand := distAdd (d.getD u none) (weights.getD j 0)
      let old := d.getD e.2.toNat none
      d.set e.2.toNat (if distLt cand old then cand else old)
    else d) dist

/-- Modelled from the spec: one round of the reference Dijkstra — settle
the closest unvisited vertex and relax its outgoing edges. -/
def refDijkstraStep (lines : List Vec2i) (weights : List ℚ)
    (s : List (Option ℚ) × List Bool) : List (Option ℚ) × List Bool :=
  match refPickMin s.1 s.2 with
  | none => s
  | some u => (refRelax lines weights u s.1, s.2.set u true)

/-- Modelled from the spec (section 8): the reference single-threaded
Dijkstra over the same weighted edge list, returning the per-vertex `dist`
values (`none` = unreachable / `+∞`). -/
def refDijkstraDist (g : Graph) (start : ℕ) : List (Option ℚ) :=
  let d0 := (List.replicate g.npoints (none : Option ℚ)).set start (some 0)
  let v0 := List.replicate g.npoints false
  ((List.range g.npoints).foldl
    (fun s _ => refDijkstraStep g.lines_ g.edge_weights_ s) (d0, v0)).1

/- ## OccupancyGrid data model
(src/src/cupoch/geometry/occupancygrid.h: header part and implementation
part after the separator) -/

/-- `Eigen::Vector3i`. -/
structure Vector3i where
  x : ℤ
  y : ℤ
  z : ℤ
deriving DecidableEq

/-- `Eigen::Vector3f`, with exact rational components. -/
structure Vector3q where
  x : ℚ
  y : ℚ
  z : ℚ
deriving DecidableEq

/-- Lexicographic order on `Eigen::Vector3i` used by `thrust::sort` of the
voxel candidate lists. -/
def v3iLt (a b : Vector3i) : Bool :=
  decide (a.x < b.x) ||
    (a.x == b.x && (decide (a.y < b.y) || (a.y == b.y && decide (a.z < b.z))))

/-- Componentwise subtraction. -/
def vqsub (a b : Vector3q) : Vector3q := ⟨qsub a.x b.x, qsub a.y b.y, qsub a.z b.z⟩

/-- Componentwise addition. -/
def vqadd (a b : Vector3q) : Vector3q := ⟨qadd a.x b.x, qadd a.y b.y, qadd a.z b.z⟩

/-- Division of a vector by a scalar. -/
def vqdivS (a : Vector3q) (s : ℚ) : Vector3q := ⟨qdiv a.x s, qdiv a.y s, qdiv a.z s⟩

/-- Scaling of a vector by a scalar. -/
def vqscaleQ (s : ℚ) (a : Vector3q) : Vector3q := ⟨qmul s a.x, qmul s a.y, qmul s a.z⟩

/-- A natural number as a kernel-reducible rational. -/
def natQ (n : ℕ) : ℚ := mkRat (Int.ofNat n) 1

/-- Componentwise floor (`Eigen::device_vectorize<float, 3, ::floor>`). -/
def vqfloorI (a : Vector3q) : Vector3i := ⟨qfloor a.x, qfloor a.y, qfloor a.z⟩

/-- Componentwise integer vector addition. -/
def viAdd (a b : Vector3i) : Vector3i := ⟨a.x + b.x, a.y + b.y, a.z + b.z⟩

/-- Integer vector viewed with rational components (`cast<float>`). -/
def viToQ (a : Vector3i) : Vector3q := ⟨mkRat a.x 1, mkRat a.y 1, mkRat a.z 1⟩

/-- Modelled from the spec: the sentinel invalid voxel index
(`INVALID_VOXEL_INDEX`, `voxelgrid.h` is not under `src/`), an `int` value
at least `resolution³` for every grid in scope so that the range filters
discard sentinel candidates. -/
def INVALID_VOXEL_INDEX : ℤ := 2147483647

/-- The sentinel candidate triple. -/
def invalidVoxel : Vector3i :=
  ⟨INVALID_VOXEL_INDEX, INVALID_VOXEL_INDEX, INVALID_VOXEL_INDEX⟩

/-- `OccupancyVoxel` (occupancygrid.h lines 9-24): grid index, log-odds
occupancy with `none` for the NaN "unobserved" marker, and colour
defaulting to `(0, 0, 1)`.  The default grid index of the `Voxel` base
(`voxelgrid.h` is not under `src/`) is modelled as the zero vector; no
claim reads it before it is assigned. -/
structure OccupancyVoxel where
  grid_index_ : Vector3i
  prob_log_ : Option ℚ
  color_ : Color3
deriving DecidableEq

/-- A default-constructed `OccupancyVoxel`. -/
def occVoxelDefault : OccupancyVoxel :=
  { grid_index_ := ⟨0, 0, 0⟩, prob_log_ := none, color_ := (0, 0, 1) }

/-- Modelled from the spec (section 3, `densegrid.h` is not under `src/`):
the linearisation `IndexOf(i, j, k, R) = i + j·R + k·R²`. -/
def IndexOf (v : Vector3i) (resolution : ℤ) : ℤ :=
  v.x + v.y * resolution + v.z * resolution * resolution

/-- The state of `cupoch::geometry::OccupancyGrid`: the dense cubic voxel
array of `resolution_³` entries plus the log-odds parameters
(occupancygrid.h lines 26-73). -/
structure OccupancyGrid where
  voxel_size_ : ℚ
  resolution_ : ℤ
  origin_ : Vector3q
  voxels_ : List OccupancyVoxel
  clamping_thres_min_ : ℚ
  clamping_thres_max_ : ℚ
  prob_hit_log_ : ℚ
  prob_miss_log_ : ℚ
  occ_prob_thres_log_ : ℚ
deriving DecidableEq

/-- The `DenseGrid` constructor: allocate `resolution³` default voxels
(all NaN). -/
def initOccupancyGrid (voxel_size : ℚ) (resolution : ℤ) (origin : Vector3q)
    (cmin cmax phit pmiss thres : ℚ) : OccupancyGrid :=
  { voxel_size_ := voxel_size, resolution_ := resolution, origin_ := origin,
    voxels_ := List.replicate (resolution * resolution * resolution).toNat occVoxelDefault,
    clamping_thres_min_ := cmin, clamping_thres_max_ := cmax,
    prob_hit_log_ := phit, prob_miss_log_ := pmiss, occ_prob_thres_log_ := thres }

/-- `OccupancyGrid::GetVoxelIndex` (occupancygrid.h impl lines 277-284):
map the point to `floor((p - origin) / voxel_size) + R/2`, linearise, and
return `-1` only when the linearised index leaves `[0, R³)`. -/
def OccupancyGrid.GetVoxelIndex (g : OccupancyGrid) (point : Vector3q) : ℤ :=
  let voxel_f := vqdivS (vqsub point g.origin_) g.voxel_size_
  let h_res := g.resolution_ / 2
  let voxel_idx := viAdd (vqfloorI voxel_f) ⟨h_res, h_res, h_res⟩
  let idx := IndexOf voxel_idx g.resolution_
  if idx < 0 ∨ g.resolution_ * g.resolution_ * g.resolution_ ≤ idx then -1 else idx

/-- The grid coordinate a point maps to (the `voxel_idx` of
`GetVoxelIndex`), for stating the range conditions of the claims. -/
def OccupancyGrid.voxelCoordOf (g : OccupancyGrid) (point : Vector3q) : Vector3i :=
  let voxel_f := vqdivS (vqsub point g.origin_) g.voxel_size_
  let h_res := g.resolution_ / 2
  viAdd (vqfloorI voxel_f) ⟨h_res, h_res, h_res⟩

/-- `OccupancyGrid::IsOccupied` (impl lines 263-268). -/
def OccupancyGrid.IsOccupied (g : OccupancyGrid) (point : Vector3q) : Bool :=
  let idx := g.GetVoxelIndex point
  if idx < 0 then false
  else
    match (g.voxels_.getD idx.toNat occVoxelDefault).prob_log_ with
    | none => false
    | some p => qlt g.occ_prob_thres_log_ p

/-- `OccupancyGrid::IsUnknown` (impl lines 270-275). -/
def OccupancyGrid.IsUnknown (g : OccupancyGrid) (point : Vector3q) : Bool :=
  let idx := g.GetVoxelIndex point
  if idx < 0 then true
  else (g.voxels_.getD idx.toNat occVoxelDefault).prob_log_.isNone

/-- `OccupancyGrid::AddVoxel` (impl lines 455-469): bounds-checked
log-odds update `clamp(p + delta, cmin, cmax)` with NaN treated as 0,
stamping the grid index. -/
def OccupancyGrid.AddVoxel (g : OccupancyGrid) (voxel : Vector3i)
    (occupied : Bool) : OccupancyGrid :=
  let idx := IndexOf voxel g.resolution_
  let max_idx := g.resolution_ * g.resolution_ * g.resolution_
  if idx < 0 ∨ max_idx ≤ idx then g
  else
    let ov := g.voxels_.getD idx.toNat occVoxelDefault
    let p0 := match ov.prob_log_ with | none => 0 | some p => p
    let p1 := qadd p0 (if occupied then g.prob_hit_log_ else g.prob_miss_log_)
    let p2 := qmin (qmax p1 g.clamping_thres_min_) g.clamping_thres_max_
    let nv : OccupancyVoxel :=
      { grid_index_ := voxel, prob_log_ := some p2, color_ := ov.color_ }
    { g with voxels_ := g.voxels_.set idx.toNat nv }

/-- `add_occupancy_functor` (impl lines 211-232) for one voxel: the same
log-odds update, without any bounds check — an out-of-range index is an
out-of-bounds device write, undefined behaviour in the source; it is
modelled as no write (memory layout is out of scope). -/
def addOccupancyAt (g : OccupancyGrid) (occupied : Bool) (voxel : Vector3i) :
    OccupancyGrid :=
  let idx := IndexOf voxel g.resolution_
  if 0 ≤ idx ∧ idx < (g.voxels_.length : ℤ) then
    let ov := g.voxels_.getD idx.toNat occVoxelDefault
    let p0 := match ov.prob_log_ with | none => 0 | some p => p
    let p1 := qadd p0 (if occupied then g.prob_hit_log_ else g.prob_miss_log_)
    let p2 := qmin (qmax p1 g.clamping_thres_min_) g.clamping_thres_max_
    let nv : OccupancyVoxel :=
      { grid_index_ := voxel, prob_log_ := some p2, color_ := ov.color_ }
    { g with voxels_ := g.voxels_.set idx.toNat nv }
  else g

/-- `OccupancyGrid::AddVoxels` (impl lines 471-477): `for_each` of the
functor over the voxel list; the insertion pipeline deduplicates the list,
making the parallel writes disjoint, and the sequential fold realises one
schedule. -/
def OccupancyGrid.AddVoxels (g : OccupancyGrid) (voxels : List Vector3i)
    (occupied : Bool) : OccupancyGrid :=
  voxels.foldl (fun acc v => addOccupancyAt acc occupied v) g

/- ## Free-voxel computation of `Insert` -/

/-- The `__constant__` 7-offset neighbour table (impl lines 92-94). -/
def voxelOffset : List Vector3i :=
  [⟨0, 0, 0⟩, ⟨1, 0, 0⟩, ⟨-1, 0, 0⟩, ⟨0, 1, 0⟩, ⟨0, -1, 0⟩, ⟨0, 0, 1⟩, ⟨0, 0, -1⟩]

/-- Modelled from the spec: `intersection_test::LineSegmentAABB`
(`intersection_test.h` is not under `src/`): the segment from `p` to `q`
meets the closed box `[lo, hi]`, by the slab test over exact rationals. -/
def LineSegmentAABB (p q lo hi : Vector3q) : Bool :=
  let d := vqsub q p
  let axis := fun (pc dc loc hic : ℚ) (acc : Option (ℚ × ℚ)) =>
    match acc with
    | none => none
    | some (t0, t1) =>
      if dc == 0 then
        (if qle loc pc && qle pc hic then some (t0, t1) else none)
      else
        let ta := qdiv (qsub loc pc) dc
        let tb := qdiv (qsub hic pc) dc
        some (qmax t0 (qmin ta tb), qmin t1 (qmax ta tb))
  match axis p.z d.z lo.z hi.z
      (axis p.y d.y lo.y hi.y
        (axis p.x d.x lo.x hi.x (some (0, 1)))) with
  | none => false
  | some (t0, t1) => qle t0 t1

/-- `compute_intersect_voxel_segment_functor` (impl lines 102-137): sample
point `sidx` along the per-point step, take the voxel containing it,
offset to neighbour `vidx`, build that voxel box as `voxel_size *
(voxel_idx + offset) ± voxel_size/2` (exactly as the source: no origin
shift, box centred on the voxel corner), test the ray segment against it;
on success return the shifted integer index, else the sentinel. -/
def computeIntersectVoxelSegment (points steps : List Vector3q)
    (viewpoint : Vector3q) (half_resolution : Vector3i) (voxel_size : ℚ)
    (origin : Vector3q) (n_div : ℕ) (idx : ℕ) : Vector3i :=
  let pidx := idx / (n_div * 7)
  let svidx := idx % (n_div * 7)
  let sidx := svidx / 7
  let vidx := svidx % 7
  let step := steps.getD pidx ⟨0, 0, 0⟩
  let center := vqadd (vqscaleQ (natQ sidx) step) viewpoint
  let voxel_idx := vqfloorI (vqdivS (vqsub center origin) voxel_size)
  let offv := voxelOffset.getD vidx ⟨0, 0, 0⟩
  let voxel_center := vqscaleQ voxel_size (viToQ (viAdd voxel_idx offv))
  let bhs : Vector3q :=
    ⟨qdiv voxel_size 2, qdiv voxel_size 2, qdiv voxel_size 2⟩
  let is_intersect := LineSegmentAABB viewpoint (points.getD pidx ⟨0, 0, 0⟩)
    (vqsub voxel_center bhs) (vqadd voxel_center bhs)
  if is_intersect then viAdd voxel_idx half_resolution else invalidVoxel

/-- `ComputeFreeVoxels` (impl lines 139-165): generate the `n_div · n · 7`
candidates, remove those with a negative component or a component at least
`max_idx = resolution³` (the source compares each coordinate against the
cube of the resolution, not the resolution), then sort and deduplicate. -/
def ComputeFreeVoxels (points : List Vector3q) (viewpoint : Vector3q)
    (voxel_size : ℚ) (resolution : ℤ) (origin : Vector3q)
    (steps : List Vector3q) (n_div : ℕ) : List Vector3i :=
  if points.isEmpty then []
  else
    let n_points := points.length
    let max_idx := resolution * resolution * resolution
    let half_resolution : Vector3i := ⟨resolution / 2, resolution / 2, resolution / 2⟩
    let cands := (List.range (n_div * n_points * 7)).map
      (computeIntersectVoxelSegment points steps viewpoint half_resolution
        voxel_size origin n_div)
    let kept := cands.filter (fun v =>
      !(decide (v.x < 0) || decide (v.y < 0) || decide (v.z < 0) ||
        decide (max_idx ≤ v.x) || decide (max_idx ≤ v.y) || decide (max_idx ≤ v.z)))
    uniqueConsecutive (sortOrd v3iLt kept)

/- ## Log-odds clamping invariant machinery (claim C8) -/

/-- A mutation of the occupancy grid through the log-odds update
operations of the insertion pipeline. -/
inductive OccOp
  | addVoxel : Vector3i → Bool → OccOp
  | addVoxels : List Vector3i → Bool → OccOp
deriving DecidableEq

/-- Apply one update operation. -/
def applyOccOp (g : OccupancyGrid) : OccOp → OccupancyGrid
  | OccOp.addVoxel v occ => g.AddVoxel v occ
  | OccOp.addVoxels vs occ => g.AddVoxels vs occ

/-- Apply a sequence of update operations. -/
def applyOccOps (g : OccupancyGrid) (ops : List OccOp) : OccupancyGrid :=
  ops.foldl applyOccOp g

/-- Spec section 3, invariant 1: every voxel is unobserved (`none`, the
NaN marker) or clamped into `[clamping_thres_min_, clamping_thres_max_]`. -/
def ProbLogInv (g : OccupancyGrid) : Prop :=
  ∀ v ∈ g.voxels_, v.prob_log_ = none ∨
    ∃ p, v.prob_log_ = some p ∧
      g.clamping_thres_min_ ≤ p ∧ p ≤ g.clamping_thres_max_

theorem clamp_bounds (p cmin cmax : ℚ) (h : cmin ≤ cmax) :
    cmin ≤ qmin (qmax p cmin) cmax ∧ qmin (qmax p cmin) cmax ≤ cmax := by
  rw [qmin_eq, qmax_eq]
  exact ⟨le_min (le_max_right _ _) h, min_le_right _ _⟩

theorem addOccupancyAt_probInv (g : OccupancyGrid) (occ : Bool) (v : Vector3i)
    (h : g.clamping_thres_min_ ≤ g.clamping_thres_max_) (hg : ProbLogInv g) :
    ProbLogInv (addOccupancyAt g occ v) := by
  rw [addOccupancyAt]
  by_cases hcond : 0 ≤ IndexOf v g.resolution_ ∧
      IndexOf v g.resolution_ < (g.voxels_.length : ℤ)
  · rw [if_pos hcond]
    intro x hx
    rcases List.mem_or_eq_of_mem_set hx with hmem | heq
    · exact hg x hmem
    · subst heq
      right
      exact ⟨_, rfl, (clamp_bounds _ _ _ h).1, (clamp_bounds _ _ _ h).2⟩
  · rw [if_neg hcond]
    exact hg

theorem addOccupancyAt_clamps (g : OccupancyGrid) (occ : Bool) (v : Vector3i) :
    (addOccupancyAt g occ v).clamping_thres_min_ = g.clamping_thres_min_ ∧
    (addOccupancyAt g occ v).clamping_thres_max_ = g.clamping_thres_max_ := by
  rw [addOccupancyAt]
  by_cases hcond : 0 ≤ IndexOf v g.resolution_ ∧
      IndexOf v g.resolution_ < (g.voxels_.length : ℤ)
  · rw [if_pos hcond]; exact ⟨rfl, rfl⟩
  · rw [if_neg hcond]; exact ⟨rfl, rfl⟩

theorem addVoxels_probInv (vs : List Vector3i) :
    ∀ (g : OccupancyGrid) (occ : Bool),
      g.clamping_thres_min_ ≤ g.clamping_thres_max_ → ProbLogInv g →
      ProbLogInv (g.AddVoxels vs occ) := by
  induction vs with
  | nil => intro g occ _ hg; exact hg
  | cons v vt ih =>
    intro g occ h hg
    rw [OccupancyGrid.AddVoxels, List.foldl_cons]
    have h2 := addOccupancyAt_clamps g occ v
    exact ih (addOccupancyAt g occ v) occ (by rw [h2.1, h2.2]; exact h)
      (addOccupancyAt_probInv g occ v h hg)

theorem addVoxel_probInv (g : OccupancyGrid) (v : Vector3i) (occ : Bool)
    (h : g.clamping_thres_min_ ≤ g.clamping_thres_max_) (hg : ProbLogInv g) :
    ProbLogInv (g.AddVoxel v occ) := by
  rw [OccupancyGrid.AddVoxel]
  by_cases hcond : IndexOf v g.resolution_ < 0 ∨
      g.resolution_ * g.resolution_ * g.resolution_ ≤ IndexOf v g.resolution_
  · rw [if_pos hcond]; exact hg
  · rw [if_neg hcond]
    intro x hx
    rcases List.mem_or_eq_of_mem_set hx with hmem | heq
    · exact hg x hmem
    · subst heq
      right
      exact ⟨_, rfl, (clamp_bounds _ _ _ h).1, (clamp_bounds _ _ _ h).2⟩

theorem addVoxel_clamps (g : OccupancyGrid) (v : Vector3i) (occ : Bool) :
    (g.AddVoxel v occ).clamping_thres_min_ = g.clamping_thres_min_ ∧
    (g.AddVoxel v occ).clamping_thres_max_ = g.clamping_thres_max_ := by
  rw [OccupancyGrid.AddVoxel]
  by_cases hcond : IndexOf v g.resolution_ < 0 ∨
      g.resolution_ * g.resolution_ * g.resolution_ ≤ IndexOf v g.resolution_
  · rw [if_pos hcond]; exact ⟨rfl, rfl⟩
  · rw [if_neg hcond]; exact ⟨rfl, rfl⟩

theorem addVoxels_clamps (vs : List Vector3i) :
    ∀ (g : OccupancyGrid) (occ : Bool),
      (g.AddVoxels vs occ).clamping_thres_min_ = g.clamping_thres_min_ ∧
      (g.AddVoxels vs occ).clamping_thres_max_ = g.clamping_thres_max_ := by
  induction vs with
  | nil => intro g occ; exact ⟨rfl, rfl⟩
  | cons v vt ih =>
    intro g occ
    rw [OccupancyGrid.AddVoxels, List.foldl_cons]
    have h1 := ih (addOccupancyAt g occ v) occ
    have h2 := addOccupancyAt_clamps g occ v
    rw [OccupancyGrid.AddVoxels] at h1
    exact ⟨h1.1.trans h2.1, h1.2.trans h2.2⟩

theorem applyOccOp_probInv (g : OccupancyGrid) (op : OccOp)
    (h : g.clamping_thres_min_ ≤ g.clamping_thres_max_) (hg : ProbLogInv g) :
    ProbLogInv (applyOccOp g op) := by
  cases op with
  | addVoxel v occ => exact addVoxel_probInv g v occ h hg
  | addVoxels vs occ => exact addVoxels_probInv vs g occ h hg

theorem applyOccOp_clamps (g : OccupancyGrid) (op : OccOp) :
    (applyOccOp g op).clamping_thres_min_ = g.clamping_thres_min_ ∧
    (applyOccOp g op).clamping_thres_max_ = g.clamping_thres_max_ := by
  cases op with
  | addVoxel v occ => exact addVoxel_clamps g v occ
  | addVoxels vs occ => exact addVoxels_clamps vs g occ

theorem applyOccOps_probInv (ops : List OccOp) :
    ∀ g : OccupancyGrid,
      g.clamping_thres_min_ ≤ g.clamping_thres_max_ → ProbLogInv g →
      ProbLogInv (applyOccOps g ops) := by
  induction ops with
  | nil => intro g _ hg; exact hg
  | cons op opt ih =>
    intro g h hg
    rw [applyOccOps, List.foldl_cons]
    have h2 := applyOccOp_clamps g op
    exact ih (applyOccOp g op) (by rw [h2.1, h2.2]; exact h)
      (applyOccOp_probInv g op h hg)

theorem initOccupancyGrid_probInv (voxel_size : ℚ) (resolution : ℤ)
    (origin : Vector3q) (cmin cmax phit pmiss thres : ℚ) :
    ProbLogInv (initOccupancyGrid voxel_size resolution origin cmin cmax phit pmiss thres) := by
  intro x hx
  left
  have := List.eq_of_mem_replicate hx
  rw [this]
  rfl

/- ## Concrete instances used by the claims -/

/-- An empty undirected graph over two vertices. -/
def gEmptyU : Graph :=
  { npoints := 2, lines_ := [], edge_weights_ := [], colors_ := [],
    node_colors_ := [], edge_index_offsets_ := [], is_directed_ := false }

/-- An undirected graph holding the single logical edge (0,1) as its two
orientations, with no side arrays (edges installed directly, as through
the exposed `edges` property). -/
def gUndirPair : Graph :=
  { npoints := 2, lines_ := [(0, 1), (1, 0)], edge_weights_ := [],
    colors_ := [], node_colors_ := [], edge_index_offsets_ := [0, 1, 2],
    is_directed_ := false }

/-- A directed graph whose single edge carries a colour but no weight. -/
def gColorNoWeight : Graph :=
  { npoints := 2, lines_ := [(0, 1)], edge_weights_ := [],
    colors_ := [whiteColor], node_colors_ := [], edge_index_offsets_ := [],
    is_directed_ := true }

/-- A directed graph with one uncoloured, unweighted edge. -/
def gPlainEdge : Graph :=
  { npoints := 2, lines_ := [(0, 1)], edge_weights_ := [], colors_ := [],
    node_colors_ := [], edge_index_offsets_ := [], is_directed_ := true }

/-- A graph over three vertices without node colours. -/
def gThreeNodes : Graph :=
  { npoints := 3, lines_ := [], edge_weights_ := [], colors_ := [],
    node_colors_ := [], edge_index_offsets_ := [], is_directed_ := false }

/-- The constructed directed path `0 → 1 → 2` with unit weights: `lines_`
sorted, weights row-aligned, CSR offsets `[0, 1, 2, 2]` (spec section 3
invariants; this state is exactly what `ConstructGraph` produces from the
raw edge list). -/
def gDirPath : Graph :=
  { npoints := 3, lines_ := [(0, 1), (1, 2)], edge_weights_ := [1, 1],
    colors_ := [], node_colors_ := [], edge_index_offsets_ := [0, 1, 2, 2],
    is_directed_ := true }

/-- A 4³ occupancy grid with unit voxels at the origin and the default
log-odds parameters of the header (−2, 3.5, 0.85, −0.4, 0). -/
def grid4 : OccupancyGrid :=
  initOccupancyGrid 1 4 ⟨0, 0, 0⟩ (-2) (mkRat 7 2) (mkRat 17 20) (mkRat (-2) 5) 0

/-- `grid4` after `AddVoxel((0,1,0), occupied)`: linear index 4 holds
log-odds 0.85 > 0. -/
def grid4occ : OccupancyGrid := grid4.AddVoxel ⟨0, 1, 0⟩ true

/-- The query point `(2.5, −1.5, −1.5)`, whose grid coordinate on `grid4`
is `(4, 0, 0)` — outside `[0, 4)³`. -/
def pAlias : Vector3q := ⟨mkRat 5 2, mkRat (-3) 2, mkRat (-3) 2⟩

/- ## Claim theorems -/

/-- C1: the claim says the per-vertex `shortest_distance` values of
`DijkstraPaths(s)` (untargeted) equal those of a reference single-threaded
Dijkstra on every constructed graph with non-negative weights.  On the
constructed directed path `0 → 1 → 2` with unit weights this fails: the
`reduce_by_key` of `DijkstraPaths` writes the per-destination minima
sequentially into `res_tmp_s[0..nt)`, while the commit functor reads
`res_tmp_s` at the destination vertex id, so with destination set `{1, 2}`
every lookup misses its segment, no distance is ever committed, and the
run ends with `dist = [0, +∞, +∞]` where the reference Dijkstra yields
`[0, 1, 2]`. -/
theorem dijkstraPaths_misindexed_commit :
    gDirPath.IsConstructed = true ∧
    (Graph.DijkstraPaths gDirPath 0 (-1)).map SSSPResult.shortest_distance_ =
      [some 0, none, none] ∧
    refDijkstraDist gDirPath 0 = [some 0, some 1, some 2] := by decide

/-- C2: the claim says `|edge_weights_| = |lines_|` after every
`AddEdge`/`AddEdges`/`RemoveEdge`/`RemoveEdges` from the empty graph.  The
first `AddEdges` on an empty undirected graph with defaulted weights
already violates it: the undirected branch resizes the weights to
`2 * lines_.size()` after `lines_` has been extended with the reversed
copies, leaving 4 weights for 2 edge rows (and `ConstructGraph` keeps the
excess). -/
theorem addEdges_undirected_default_weights_misaligned :
    (Graph.AddEdges gEmptyU [(0, 1)] []).1 = none ∧
    (Graph.AddEdges gEmptyU [(0, 1)] []).2.lines_.length = 2 ∧
    (Graph.AddEdges gEmptyU [(0, 1)] []).2.edge_weights_.length = 4 := by decide

/-- C3: the claim says every free-voxel candidate outside `[0, R)³` is
discarded before the sort-and-deduplicate step.  With resolution 4 the
filter keeps the candidate `(5, 2, 2)` — its first component 5 lies
outside `[0, 4)` but below the bound `resolution³ = 64` that the source
compares each coordinate against — so an out-of-cube coordinate appears in
the resulting free-voxel set (inputs as `Insert` computes them for the
single point `(3.5, 0.25, 0.25)` seen from `(0.5, 0.25, 0.25)` with
unlimited range: step `(1, 0, 0)` and sample count `n_div + 1 = 4`). -/
theorem computeFreeVoxels_keeps_out_of_cube :
    (ComputeFreeVoxels [⟨mkRat 7 2, mkRat 1 4, mkRat 1 4⟩]
        ⟨mkRat 1 2, mkRat 1 4, mkRat 1 4⟩ 1 4 ⟨0, 0, 0⟩
        [⟨1, 0, 0⟩] 4).contains ⟨5, 2, 2⟩ = true ∧
    (4 : ℤ) ≤ (⟨5, 2, 2⟩ : Vector3i).x := by decide

/-- C4: the claim says a point whose grid coordinate leaves `[0, R)³` is
reported unknown and not occupied regardless of the array contents.  The
point `(2.5, −1.5, −1.5)` maps to grid coordinate `(4, 0, 0)` — out of
range in its first component — but its linearised index `4 + 0·4 + 0·16 =
4` aliases the in-range voxel `(0, 1, 0)`; after that voxel is marked
occupied, `IsOccupied` answers `true` and `IsUnknown` answers `false` for
the out-of-range point, because `GetVoxelIndex` only range-checks the
linearised index. -/
theorem isOccupied_out_of_range_alias :
    grid4occ.voxelCoordOf pAlias = ⟨4, 0, 0⟩ ∧
    grid4occ.resolution_ ≤ (grid4occ.voxelCoordOf pAlias).x ∧
    grid4occ.IsOccupied pAlias = true ∧
    grid4occ.IsUnknown pAlias = false := by decide

/-- C5: the claim says an undirected `RemoveEdges(E)` deletes both
orientations of every edge of `E`.  On the undirected graph with rows
`[(0,1), (1,0)]`, `RemoveEdges([(0,1)])` leaves `[(0,1)]`: the second
`set_difference` (against the reversed removal list) reads the original
rows again and overwrites the first difference, so only the reverse
orientation `(1,0)` is removed and the listed edge `(0,1)` itself
survives. -/
theorem removeEdges_keeps_forward_edge :
    (Graph.RemoveEdges gUndirPair [(0, 1)]).2.lines_ = [(0, 1)] := by decide

/-- C6 counterexample: the claim asserts the 1.0-fill of the weights after
a successful `ConstructGraph` also when edge colours are present, but the
`has_colors && !has_weights` branch never touches `edge_weights_`: on a
one-edge graph with a colour row and no weights, `ConstructGraph` returns
without error and the weight array stays empty instead of gaining one 1.0
entry. -/
theorem constructGraph_colorsOnly_no_fill :
    (Graph.ConstructGraph gColorNoWeight).1 = none ∧
    (Graph.ConstructGraph gColorNoWeight).2.lines_.length = 1 ∧
    (Graph.ConstructGraph gColorNoWeight).2.edge_weights_ = [] := by decide

/-- C6 amended: on a graph whose edge-weight array is empty on entry and
whose edge-colour array is also empty, a successful `ConstructGraph`
leaves `edge_weights_` of length `|lines_|` with every entry 1.0. -/
theorem constructGraph_fills_unit_weights_when_no_colors (g : Graph)
    (hw : g.edge_weights_ = []) (hc : g.colors_ = []) (hl : g.lines_ ≠ []) :
    (Graph.ConstructGraph g).2.edge_weights_ =
      List.replicate (Graph.ConstructGraph g).2.lines_.length (1 : ℚ) := by
  rw [Graph.ConstructGraph, if_neg (by simp [hl])]
  simp only [Graph.HasColors, Graph.HasWeights, hw, hc, List.isEmpty_nil,
    Bool.not_true, Bool.and_self, Bool.and_false, Bool.false_and]
  simp [resizeD_nil, length_sortOrd]

/-- Witness for the amended C6 on the one-edge plain graph. -/
theorem constructGraph_fills_unit_weights_when_no_colors_witness :
    gPlainEdge.edge_weights_ = [] ∧ gPlainEdge.colors_ = [] ∧
    gPlainEdge.lines_ ≠ [] ∧
    (Graph.ConstructGraph gPlainEdge).2.edge_weights_ =
      List.replicate (Graph.ConstructGraph gPlainEdge).2.lines_.length (1 : ℚ) :=
  ⟨rfl, rfl, by decide,
    constructGraph_fills_unit_weights_when_no_colors gPlainEdge rfl rfl (by decide)⟩

/-- C7: the claim says `PaintNodesColor(N, c)` colours exactly the listed
node indices.  With three white nodes and `N = [2]`, the source colours
`node_colors_[0]` (the counting range `[0, |N|)`) and leaves index 2
white: the node list content is never read. -/
theorem paintNodesColor_paints_prefix :
    (Graph.PaintNodesColor gThreeNodes [2] (1, 0, 0)).node_colors_ =
      [(1, 0, 0), whiteColor, whiteColor] := by decide

/-- C8: provided `clamping_thres_min_ ≤ clamping_thres_max_`, every voxel
of the grid obtained from the all-NaN initial grid by any sequence of
`AddVoxel` / `AddVoxels` calls (the operations `Insert` performs) has
`prob_log_` either NaN (`none`) or inside
`[clamping_thres_min_, clamping_thres_max_]`. -/
theorem addVoxel_addVoxels_prob_log_clamped (voxel_size : ℚ) (resolution : ℤ)
    (origin : Vector3q) (cmin cmax phit pmiss thres : ℚ)
    (h : cmin ≤ cmax) (ops : List OccOp) :
    ProbLogInv (applyOccOps
      (initOccupancyGrid voxel_size resolution origin cmin cmax phit pmiss thres) ops) :=
  applyOccOps_probInv ops _ h
    (initOccupancyGrid_probInv voxel_size resolution origin cmin cmax phit pmiss thres)

/-- Witness for C8 on a 1³ grid hit twice. -/
theorem addVoxel_addVoxels_prob_log_clamped_witness :
    ((-2 : ℚ) ≤ mkRat 7 2) ∧
    ProbLogInv (applyOccOps
      (initOccupancyGrid 1 1 ⟨0, 0, 0⟩ (-2) (mkRat 7 2) (mkRat 17 20) (mkRat (-2) 5) 0)
      [OccOp.addVoxel ⟨0, 0, 0⟩ true, OccOp.addVoxels [⟨0, 0, 0⟩] false]) :=
  ⟨by rw [(by norm_num : (mkRat 7 2 : ℚ) = 7 / 2)]; norm_num,
    addVoxel_addVoxels_prob_log_clamped 1 1 ⟨0, 0, 0⟩ (-2) (mkRat 7 2)
      (mkRat 17 20) (mkRat (-2) 5) 0
      (by rw [(by norm_num : (mkRat 7 2 : ℚ) = 7 / 2)]; norm_num)
      [OccOp.addVoxel ⟨0, 0, 0⟩ true, OccOp.addVoxels [⟨0, 0, 0⟩] false]⟩

/-- C9: `AddEdges(E, W)` with `W` non-empty and `|W| ≠ |E|` fails with the
size-mismatch error and returns the graph with `lines_`, `edge_weights_`,
`colors_` and `edge_index_offsets_` exactly as before the call. -/
theorem addEdges_size_mismatch_unchanged (g : Graph) (edges : List Vec2i)
    (weights : List ℚ) (hne : weights ≠ [])
    (hlen : edges.length ≠ weights.length) :
    Graph.AddEdges g edges weights = (some GraphError.sizeMismatch, g) := by
  rw [Graph.AddEdges, if_pos]
  cases weights with
  | nil => exact absurd rfl hne
  | cons w ws => simpa [bne_iff_ne] using hlen

/-- Witness for C9: adding one edge with two weights fails and leaves the
empty graph untouched. -/
theorem addEdges_size_mismatch_unchanged_witness :
    ([(1 : ℚ), 2] ≠ []) ∧ ([((0 : ℤ), (1 : ℤ))].length ≠ [(1 : ℚ), 2].length) ∧
    Graph.AddEdges gEmptyU [(0, 1)] [1, 2] = (some GraphError.sizeMismatch, gEmptyU) :=
  ⟨by decide, by decide,
    addEdges_size_mismatch_unchanged gEmptyU [(0, 1)] [1, 2] (by decide) (by decide)⟩
